import Mathlib

/-!
Verification of `esp-flasher/i2cscanner.py`, a MicroPython I2C bus scanner.

The script initializes an I2C bus handle at module level, then `scan_i2c`
prints a banner and loops forever: print "Scanning...", call `i2c.scan()`,
print one line per found address (or a "no devices" line), print "done\n",
sleep 5 seconds.

The implementation of `machine.I2C` (its constructor and `scan` method) is
platform firmware and is not part of the repository sources; where a claim
is about that behaviour, the corresponding definition is modelled from the
specification and marked as such in its doc comment.  Everything about
`scan_i2c` itself is translated directly from the Python source, with the
list returned by `i2c.scan()` left as an arbitrary parameter.
-/

namespace I2CScanner

/-! ## Hex formatting: Python `"0x{:02X}".format(device)` -/

/-- Uppercase hexadecimal digits of `n` (most significant first), as produced
by Python's `X` format code before padding. -/
def hexDigitsUpper (n : Nat) : List Char :=
  (Nat.toDigits 16 n).map Char.toUpper

/-- Python's `"{:02X}".format(n)`: uppercase hex, zero-padded to width 2. -/
def fmt02X (n : Nat) : String :=
  let ds := hexDigitsUpper n
  String.mk (List.replicate (2 - ds.length) '0' ++ ds)

/-- A character that is an uppercase hexadecimal digit (`0`–`9`, `A`–`F`). -/
def isUpperHexDigit (c : Char) : Bool :=
  (decide ('0' ≤ c) && decide (c ≤ '9')) || (decide ('A' ≤ c) && decide (c ≤ 'F'))

/-- The line printed for one found device (source line 15):
`"I2C device found at address 0x{:02X}!".format(device)`. -/
def foundLine (device : Nat) : String :=
  "I2C device found at address 0x" ++ fmt02X device ++ "!"

/-- The lines printed by the `if devices: ... else: ...` block of
`scan_i2c` (source lines 13–17) for a given `devices` list returned by
`i2c.scan()`.  Python's truthiness on a list is non-emptiness. -/
def reportLines (devices : List Nat) : List String :=
  if devices.isEmpty then ["No I2C devices found"]
  else devices.map foundLine

/-! ## Observable events of `scan_i2c` -/

/-- One observable action of the script: a `print(s)` call (which appends a
newline to `s` on the stream), a call to `i2c.scan()` returning a device
list, or a `time.sleep(seconds)` call. -/
inductive Event where
  | pr : String → Event
  | scanCall : List Nat → Event
  | sleep : Nat → Event
deriving DecidableEq, Repr

/-- `true` exactly on `scanCall` events. -/
def Event.isScanCall : Event → Bool
  | .scanCall _ => true
  | _ => false

/-- `true` exactly on `sleep` events. -/
def Event.isSleep : Event → Bool
  | .sleep _ => true
  | _ => false

/-- `true` exactly on `pr` events. -/
def Event.isPr : Event → Bool
  | .pr _ => true
  | _ => false

/-- The banner print executed once on entry to `scan_i2c` (source line 9):
`print("\nSoldered I2C Scanner!")`. -/
def bannerEvent : Event := Event.pr "\nSoldered I2C Scanner!"

/-- The events of one iteration of the `while True` body of `scan_i2c`
(source lines 11–19), given the list `devices` that `i2c.scan()` returned
in that iteration: print "Scanning...", the scan call itself, the report
block, print "done\n", sleep 5. -/
def iterEvents (devices : List Nat) : List Event :=
  Event.pr "Scanning..." :: Event.scanCall devices ::
    (reportLines devices).map Event.pr ++ [Event.pr "done\n", Event.sleep 5]

/-- The event trace of `scan_i2c` up to (not including) iteration `n`,
where `devSeq k` is the list returned by `i2c.scan()` in iteration `k`.
The banner is printed once before the loop. -/
def traceUpTo (devSeq : Nat → List Nat) : Nat → List Event
  | 0 => [bannerEvent]
  | n + 1 => traceUpTo devSeq n ++ iterEvents (devSeq n)

/-- The text written to the output stream by a list of events: each
`print(s)` writes `s` followed by a newline; scans and sleeps write
nothing. -/
def printedOutput : List Event → String
  | [] => ""
  | Event.pr s :: es => s ++ "\n" ++ printedOutput es
  | Event.scanCall _ :: es => printedOutput es
  | Event.sleep _ :: es => printedOutput es

/-- Concatenation of a list of strings. -/
def joinAll : List String → String
  | [] => ""
  | s :: rest => s ++ joinAll rest

/-- The per-iteration output text as the spec describes it: the
`Scanning...` line, then the report lines, then a `done` line followed by
a blank line. -/
def iterOutputSpec (devices : List Nat) : String :=
  "Scanning...\n" ++ joinAll ((reportLines devices).map (· ++ "\n")) ++ "done\n\n"

/-! ## The model of `i2c.scan()` -/

/-- Modelled from the spec: the implementation of `machine.I2C.scan` is
platform firmware, absent from the repository sources.  Per the spec,
`sweep` probes each address in `[0,127]` in ascending order and includes
an address in the result iff its presence probe is acknowledged, where
`bus a = true` means address `a` acknowledges. -/
def sweep (bus : Nat → Bool) : List Nat :=
  (List.range 128).filter bus

/-- Outcome of one presence probe at one address: acknowledged, not
acknowledged (device absent — not an error), or a transport-level bus
fault. -/
inductive ProbeResult where
  | ack : ProbeResult
  | nack : ProbeResult
  | fault : ProbeResult
deriving DecidableEq, Repr

/-- `true` exactly on `ack`. -/
def ProbeResult.isAck : ProbeResult → Bool
  | .ack => true
  | _ => false

/-- `true` exactly on `fault`. -/
def ProbeResult.isFault : ProbeResult → Bool
  | .fault => true
  | _ => false

/-- The only transport-level error of a sweep. -/
inductive BusError where
  | transportFault : BusError
deriving DecidableEq, Repr

/-- Modelled from the spec: a sweep over a bus whose probes may fault.
It fails with `BusError` iff some probed address suffers a transport
fault; otherwise it returns the acknowledged addresses.  Non-ack is not
an error. -/
def sweepE (probe : Nat → ProbeResult) : Except BusError (List Nat) :=
  if (List.range 128).any (fun a => (probe a).isFault) then
    Except.error BusError.transportFault
  else
    Except.ok ((List.range 128).filter (fun a => (probe a).isAck))

/-! ## The model of bus initialization -/

/-- The bus handle: clock pin, data pin, clock frequency in Hz
(spec §3; the source configures `scl=Pin(22), sda=Pin(21), freq=100000`). -/
structure BusHandle where
  clockPin : Nat
  dataPin : Nat
  freqHz : Nat
deriving DecidableEq, Repr

/-- The error raised when the peripheral or pins cannot be configured. -/
inductive HardwareInitError where
  | invalidPin : HardwareInitError
  | peripheralUnavailable : HardwareInitError
deriving DecidableEq, Repr

/-- Modelled from the spec: the `machine.I2C` constructor is platform
firmware, absent from the repository sources.  Per the spec, bus
initialization configures the two-wire peripheral and fails with
`HardwareInitError` if a pin is invalid or the peripheral is unavailable.
Pin validity and peripheral availability are platform parameters
(`validPin`, `periphAvail`). -/
def initBus (validPin : Nat → Bool) (periphAvail : Bool)
    (clockPin dataPin freqHz : Nat) : Except HardwareInitError BusHandle :=
  if validPin clockPin && validPin dataPin then
    if periphAvail then
      Except.ok ⟨clockPin, dataPin, freqHz⟩
    else
      Except.error HardwareInitError.peripheralUnavailable
  else
    Except.error HardwareInitError.invalidPin

/-- The module-level handle of the source (line 6):
`I2C(0, scl=Pin(22), sda=Pin(21), freq=100000)`. -/
def i2cHandle (validPin : Nat → Bool) (periphAvail : Bool) :
    Except HardwareInitError BusHandle :=
  initBus validPin periphAvail 22 21 100000

/-! ## The entry point -/

/-- The guarded entry point (source lines 21–22):
`if __name__ == "__main__": scan_i2c()`.  Command-line arguments and the
environment are passed in to record that they are never consulted. -/
def mainTrace (moduleName : String) (argv : List String)
    (env : List (String × String)) (devSeq : Nat → List Nat) (n : Nat) :
    Option (List Event) :=
  if moduleName == "__main__" then some (traceUpTo devSeq n) else none

/-! ## Helper lemmas -/

theorem printedOutput_append (l l' : List Event) :
    printedOutput (l ++ l') = printedOutput l ++ printedOutput l' := by
  induction l with
  | nil => simp [printedOutput]
  | cons e es ih =>
    cases e <;> simp [printedOutput, ih, String.append_assoc]

theorem printedOutput_map_pr (l : List String) :
    printedOutput (l.map Event.pr) = joinAll (l.map (· ++ "\n")) := by
  induction l with
  | nil => rfl
  | cons s rest ih => simp [printedOutput, joinAll, ih, String.append_assoc]

theorem joinAll_append (l l' : List String) :
    joinAll (l ++ l') = joinAll l ++ joinAll l' := by
  induction l with
  | nil => simp [joinAll]
  | cons s rest ih => simp [joinAll, ih, String.append_assoc]

theorem printedOutput_iterEvents (d : List Nat) :
    printedOutput (iterEvents d) = iterOutputSpec d := by
  simp [iterEvents, iterOutputSpec, printedOutput, printedOutput_append,
    printedOutput_map_pr, String.append_assoc]

/-! ## Claim theorems -/

/-- C1: `sweep` returns exactly the addresses whose presence probe is
acknowledged — membership in the result is equivalent to being a valid
7-bit address that acknowledged — and on a bus where exactly `0x3C` and
`0x68` acknowledge it returns exactly `[0x3C, 0x68]` in that order. -/
theorem sweep_mem_iff_ack :
    (∀ (bus : Nat → Bool) (a : Nat), a ∈ sweep bus ↔ (a ≤ 127 ∧ bus a = true)) ∧
    sweep (fun a => a == 0x3C || a == 0x68) = [0x3C, 0x68] := by
  constructor
  · intro bus a
    simp [sweep, List.mem_filter, List.mem_range, Nat.lt_succ_iff]
  · decide

/-- C2: every address in a sweep's result lies in `[0,127]`, and the
result is strictly ascending, hence without duplicates. -/
theorem sweep_bounded_sorted (bus : Nat → Bool) :
    (∀ a ∈ sweep bus, a ≤ 127) ∧
    (sweep bus).Sorted (· < ·) ∧ (sweep bus).Nodup := by
  refine ⟨?_, ?_, ?_⟩
  · intro a ha
    have := (List.mem_filter.mp ha).1
    exact Nat.lt_succ_iff.mp (List.mem_range.mp this)
  · exact (List.pairwise_lt_range 128).filter bus
  · exact (List.nodup_range 128).filter bus

/-- C2 witness: the bound and the ordering, instantiated on a concrete bus. -/
theorem sweep_bounded_sorted_witness :
    60 ≤ 127 ∧ (sweep (fun a => a == 60)).Sorted (· < ·) :=
  ⟨(sweep_bounded_sorted (fun a => a == 60)).1 60 (by decide),
   (sweep_bounded_sorted (fun a => a == 60)).2.1⟩

/-- C3: `report([])` is exactly the single line `No I2C devices found`;
`report([0x3C])` is exactly `I2C device found at address 0x3C!`; for every
non-empty device list the report is exactly one found-line per device; and
for every 7-bit address the formatted `XX` part is exactly two uppercase
hexadecimal digits. -/
theorem report_lines_correct :
    reportLines [] = ["No I2C devices found"] ∧
    reportLines [0x3C] = ["I2C device found at address 0x3C!"] ∧
    (∀ ds : List Nat, ds ≠ [] → reportLines ds = ds.map foundLine) ∧
    (∀ d : Nat, d < 128 →
      (fmt02X d).length = 2 ∧ (fmt02X d).data.all isUpperHexDigit = true) := by
  refine ⟨rfl, rfl, ?_, ?_⟩
  · intro ds h
    cases ds with
    | nil => exact absurd rfl h
    | cons x xs => rfl
  · decide

/-- C3 witness: the report of a concrete non-empty list. -/
theorem report_lines_correct_witness :
    reportLines [0x68] = [foundLine 0x68] ∧ (fmt02X 0x68).length = 2 :=
  ⟨report_lines_correct.2.2.1 [0x68] (by decide),
   (report_lines_correct.2.2.2 0x68 (by decide)).1⟩

/-- C4: every iteration of the `while True` loop performs exactly one
sweep (`i2c.scan()` call) and exactly one report block, ends with the
5-second suspension, and the loop never returns: every trace extends
strictly to the next iteration. -/
theorem run_forever_loop_shape (devSeq : Nat → List Nat) (k n : Nat) :
    (iterEvents (devSeq k)).countP Event.isScanCall = 1 ∧
    (iterEvents (devSeq k)).countP Event.isSleep = 1 ∧
    (iterEvents (devSeq k)).countP Event.isPr = 2 + (reportLines (devSeq k)).length ∧
    (iterEvents (devSeq k)).getLast? = some (Event.sleep 5) ∧
    traceUpTo devSeq (n + 1) = traceUpTo devSeq n ++ iterEvents (devSeq n) ∧
    (traceUpTo devSeq n).length < (traceUpTo devSeq (n + 1)).length := by
  refine ⟨?_, ?_, ?_, ?_, rfl, ?_⟩
  · simp [iterEvents, List.countP_append, List.countP_cons, List.countP_map,
      Function.comp_def, Event.isScanCall]
  · simp [iterEvents, List.countP_append, List.countP_cons, List.countP_map,
      Function.comp_def, Event.isSleep]
  · simp [iterEvents, List.countP_append, List.countP_cons, List.countP_map,
      Function.comp_def, Event.isPr]
    omega
  · have h : iterEvents (devSeq k) =
        (Event.pr "Scanning..." :: Event.scanCall (devSeq k) ::
          (reportLines (devSeq k)).map Event.pr ++ [Event.pr "done\n"]) ++
          [Event.sleep 5] := by
      simp [iterEvents]
    rw [h, List.getLast?_concat]
  · simp [traceUpTo, iterEvents]

/-- C5: the output stream is the banner emitted once, followed for every
iteration by the `Scanning...` line, the report lines (per-address found
lines or the single no-devices line), and a `done` line terminated by a
blank line, in exactly that order. -/
theorem output_stream_shape (devSeq : Nat → List Nat) (n : Nat) :
    printedOutput (traceUpTo devSeq n) =
      "\nSoldered I2C Scanner!\n" ++
        joinAll ((List.range n).map (fun k => iterOutputSpec (devSeq k))) := by
  induction n with
  | zero => rfl
  | succ m ih =>
    rw [traceUpTo, printedOutput_append, ih, printedOutput_iterEvents,
      List.range_succ, List.map_append, joinAll_append, String.append_assoc]
    simp [joinAll]

/-- C6: bus initialization returns a configured `BusHandle` on valid
input, and on any invalid pin or unavailable peripheral fails with
`HardwareInitError`, producing no bus handle (no partial state). -/
theorem init_bus_contract (validPin : Nat → Bool) (periphAvail : Bool)
    (c d f : Nat) :
    (validPin c = true → validPin d = true → periphAvail = true →
      initBus validPin periphAvail c d f = Except.ok ⟨c, d, f⟩) ∧
    ((validPin c = false ∨ validPin d = false ∨ periphAvail = false) →
      ∃ e : HardwareInitError,
        initBus validPin periphAvail c d f = Except.error e ∧
        ∀ h : BusHandle, initBus validPin periphAvail c d f ≠ Except.ok h) := by
  constructor
  · intro hc hd hp
    simp [initBus, hc, hd, hp]
  · intro hbad
    have herr : ∃ e : HardwareInitError,
        initBus validPin periphAvail c d f = Except.error e := by
      rcases hbad with h | h | h
      · exact ⟨HardwareInitError.invalidPin, by simp [initBus, h]⟩
      · exact ⟨HardwareInitError.invalidPin, by simp [initBus, h]⟩
      · cases hcd : (validPin c && validPin d)
        · exact ⟨HardwareInitError.invalidPin, by simp [initBus, hcd]⟩
        · exact ⟨HardwareInitError.peripheralUnavailable, by simp [initBus, hcd, h]⟩
    rcases herr with ⟨e, he⟩
    exact ⟨e, he, by simp [he]⟩

/-- C6 witness: the module-level construction (pins 22 and 21 at
100000 Hz) succeeds when pins 0–39 are valid, and an out-of-range clock
pin fails with `HardwareInitError`. -/
theorem init_bus_contract_witness :
    initBus (fun p => decide (p ≤ 39)) true 22 21 100000 =
        Except.ok ⟨22, 21, 100000⟩ ∧
    ∃ e : HardwareInitError,
      initBus (fun p => decide (p ≤ 39)) true 99 21 100000 = Except.error e ∧
      ∀ h : BusHandle,
        initBus (fun p => decide (p ≤ 39)) true 99 21 100000 ≠ Except.ok h :=
  ⟨(init_bus_contract (fun p => decide (p ≤ 39)) true 22 21 100000).1
      (by decide) (by decide) rfl,
   (init_bus_contract (fun p => decide (p ≤ 39)) true 99 21 100000).2
      (Or.inl (by decide))⟩

/-- C7: a sweep fails with `BusError` only when some probed address
suffers a transport-level fault; when all probes complete without a
fault — acknowledged or not — it returns the `ScanResult` of the
acknowledged addresses. -/
theorem sweep_error_only_on_fault (probe : Nat → ProbeResult) :
    ((∀ a, a ≤ 127 → (probe a).isFault = false) →
      sweepE probe = Except.ok (sweep (fun a => (probe a).isAck))) ∧
    (∀ e : BusError, sweepE probe = Except.error e →
      ∃ a, a ≤ 127 ∧ (probe a).isFault = true) := by
  constructor
  · intro hnf
    have hany : (List.range 128).any (fun a => (probe a).isFault) = false := by
      simp only [List.any_eq_false, List.mem_range, Nat.lt_succ_iff]
      intro a ha
      simp [hnf a ha]
    simp [sweepE, hany, sweep]
  · intro e he
    simp [sweepE] at he
    rcases he with ⟨a, ha, hf⟩
    exact ⟨a, Nat.lt_succ_iff.mp ha, hf⟩

/-- C7 witness: on a bus where every probe completes with non-ack and no
fault, the sweep succeeds with the empty result rather than an error. -/
theorem sweep_error_only_on_fault_witness :
    sweepE (fun _ => ProbeResult.nack) =
      Except.ok (sweep (fun a => (ProbeResult.nack).isAck)) :=
  (sweep_error_only_on_fault (fun _ => ProbeResult.nack)).1
    (fun _ _ => by decide)

/-- C8: invoked as the main program, the entry point runs `scan_i2c`
unconditionally, and its behaviour is independent of command-line
arguments and environment variables. -/
theorem main_entry_unconditional (argv argv' : List String)
    (env env' : List (String × String)) (devSeq : Nat → List Nat) (n : Nat) :
    mainTrace "__main__" argv env devSeq n = some (traceUpTo devSeq n) ∧
    ∀ m : String, mainTrace m argv env devSeq n = mainTrace m argv' env' devSeq n :=
  ⟨rfl, fun _ => rfl⟩

/-- C9: every suspension in the trace of `scan_i2c` lasts exactly 5
seconds — the interval is the fixed constant 5 and no caller can
configure it. -/
theorem sleep_always_five (devSeq : Nat → List Nat) (n d : Nat)
    (hmem : Event.sleep d ∈ traceUpTo devSeq n) : d = 5 := by
  induction n with
  | zero => simp [traceUpTo, bannerEvent] at hmem
  | succ m ih =>
    rw [traceUpTo, List.mem_append] at hmem
    rcases hmem with h | h
    · exact ih h
    · simp only [iterEvents, List.mem_cons, List.mem_append, List.mem_map] at h
      rcases h with h | h | ⟨s, _, h⟩ | h | h | h <;> simp_all

/-- C9 witness: the sleep event of the first iteration, on a concrete
device sequence, has duration 5. -/
theorem sleep_always_five_witness :
    Event.sleep 5 ∈ traceUpTo (fun _ => []) 1 ∧ 5 = 5 :=
  ⟨by decide, sleep_always_five (fun _ => []) 1 5 (by decide)⟩

/-- C10: the event segment an iteration contributes to the trace — and
hence its printed output — is a function of that iteration's `i2c.scan()`
result alone: two runs whose scans agree at iterations `i` and `j`
produce identical segments and character-for-character identical output
there, with no history retained across sweeps. -/
theorem iteration_output_local (b b' : Nat → List Nat) (i j : Nat)
    (h : b i = b' j) :
    (traceUpTo b (i + 1)).drop (traceUpTo b i).length =
      (traceUpTo b' (j + 1)).drop (traceUpTo b' j).length ∧
    printedOutput ((traceUpTo b (i + 1)).drop (traceUpTo b i).length) =
      printedOutput ((traceUpTo b' (j + 1)).drop (traceUpTo b' j).length) := by
  have hb : (traceUpTo b (i + 1)).drop (traceUpTo b i).length = iterEvents (b i) := by
    rw [traceUpTo, List.drop_left]
  have hb' : (traceUpTo b' (j + 1)).drop (traceUpTo b' j).length = iterEvents (b' j) := by
    rw [traceUpTo, List.drop_left]
  rw [hb, hb', h]
  exact ⟨rfl, rfl⟩

/-- C10 witness: two runs with the same empty scan result at iteration 0
contribute identical segments. -/
theorem iteration_output_local_witness :
    (traceUpTo (fun _ => []) 1).drop (traceUpTo (fun _ => []) 0).length =
      (traceUpTo (fun _ => ([] : List Nat)) 1).drop
        (traceUpTo (fun _ => ([] : List Nat)) 0).length :=
  (iteration_output_local (fun _ => []) (fun _ => []) 0 0 rfl).1

end I2CScanner
